import Mathlib

set_option maxRecDepth 4000

/-!
Verification of the meeting-bot turn-taking orchestrator
(`meeting-bot/run_jimmy.py`): the Silero-VAD utterance segmenter
(`VADCapture.get_utterance`), the transcription dispatcher with fallback
(`transcribe_remote` / `transcribe_local` / `_filter_text`), the sentence
chunking speech dispatcher (`speak`), the agent mailbox
(`read_agent_response`), and the main coordinator loop (`main`).

Modelling conventions:
* Audio buffers are modelled by their sample count (a `Nat`); a duration
  check `len(buf)/SAMPLE_RATE >= D` in the source is the exact integer
  comparison `buf >= D * SAMPLE_RATE` because `SAMPLE_RATE = 16000` and
  the thresholds are 1.0 s and 30.0 s.
* Wall-clock times are `Nat` milliseconds. `time.time()` is strictly
  positive at runtime, so the Python falsiness test
  `if not self.speech_start` coincides with a `None` test, which is how it
  is modelled. Each capture iteration advances time by one frame
  (`CAPTURE_CHUNK_SEC = 0.5 s`, i.e. 500 ms).
* Python float comparisons such as `now - last < 8` hold in particular
  whenever `now < last`; `Nat` truncated subtraction gives `0 < 8000`
  there, so the two sides of the guard agree on every input.
-/

/-! ### Configuration constants (run_jimmy.py lines 33-41) -/

def SAMPLE_RATE : Nat := 16000

/-- `MIN_SPEECH_SEC = 1.0`, expressed in samples: `1.0 * 16000`. -/
def MIN_SPEECH_SAMPLES : Nat := 16000

/-- `MAX_SPEECH_SEC = 30.0`, expressed in samples: `30.0 * 16000`. -/
def MAX_SPEECH_SAMPLES : Nat := 480000

/-- `SILENCE_TIMEOUT_SEC = 1.5`, in milliseconds. -/
def SILENCE_TIMEOUT_MS : Nat := 1500

/-- `CAPTURE_CHUNK_SEC = 0.5`, in milliseconds: duration of one frame. -/
def FRAME_MS : Nat := 500

/-- Nominal samples in one captured frame: `SAMPLE_RATE * CAPTURE_CHUNK_SEC`. -/
def FRAME_SAMPLES : Nat := 8000

/-- `max_wait = int(2.0 / CAPTURE_CHUNK_SEC)` (get_utterance line 168). -/
def MAX_WAIT : Nat := 4

/-- `now - last_speak_time < 8` seconds (main loop line 508), in ms. -/
def SELF_INTERRUPT_MS : Nat := 8000

/-- `for _ in range(30)` reply polls, one per second (main loop line 515). -/
def REPLY_TIMEOUT_POLLS : Nat := 30

/-! ### VADCapture.get_utterance (lines 158-209)

State carried across loop iterations: the accumulated buffer
(`self.audio_buffer`, modelled by its sample count), `self.speech_start`,
`self.silence_start` (timestamps or `None`) and the local `wait_chunks`
counter. -/

structure VADState where
  buf : Nat
  speech_start : Option Nat
  silence_start : Option Nat
  wait_chunks : Nat
deriving DecidableEq, Repr

/-- The state `get_utterance` establishes on entry (lines 164-167). -/
def initVAD : VADState := ⟨0, none, none, 0⟩

/-- One captured frame: the VAD verdict `has_speech` returned for it and
its sample count (`len(data)`; nominally `FRAME_SAMPLES`). -/
structure Frame where
  speech : Bool
  samples : Nat
deriving DecidableEq, Repr

/-- Outcome of one iteration of the `while True` body. -/
inductive StepResult where
  | emit (samples : Nat)
  | noSpeech
  | next (s : VADState)
deriving DecidableEq, Repr

/-- The trailing safety check (lines 206-209): force-return the buffer
once its duration reaches `MAX_SPEECH_SEC`. -/
def forceCheck (s : VADState) : StepResult :=
  if MAX_SPEECH_SAMPLES ≤ s.buf then .emit s.buf else .next s

/-- One iteration of the `get_utterance` loop body (lines 170-209) on a
frame with verdict `speech` and `n` samples, at wall-clock time `now`. -/
def vadStep (now : Nat) (speech : Bool) (n : Nat) (s : VADState) : StepResult :=
  match s.silence_start, s.speech_start with
  | _, none =>
    -- waiting for speech to start (lines 174-183)
    if speech then
      .next ⟨s.buf + n, some now, none, s.wait_chunks⟩
    else
      if MAX_WAIT < s.wait_chunks + 1 then .noSpeech
      else .next ⟨s.buf, none, s.silence_start, s.wait_chunks + 1⟩
  | sil, some t0 =>
    -- speech in progress: accumulate the frame (line 186), then the
    -- silence logic, then the forced-length safety check (lines 206-209)
    if speech then
      forceCheck ⟨s.buf + n, some t0, none, s.wait_chunks⟩
    else
      match sil with
      | none => forceCheck ⟨s.buf + n, some t0, some now, s.wait_chunks⟩
      | some ss =>
        if SILENCE_TIMEOUT_MS < now - ss then
          -- utterance complete (lines 195-204)
          if MIN_SPEECH_SAMPLES ≤ s.buf + n then .emit (s.buf + n)
          else forceCheck ⟨0, none, none, 0⟩
        else forceCheck ⟨s.buf + n, some t0, some ss, s.wait_chunks⟩

/-- Result of running the loop over a finite frame prefix. -/
inductive VADResult where
  | emitted (samples : Nat)
  | noSpeech
  | outOfInput (s : VADState)
deriving DecidableEq, Repr

/-- Run the `get_utterance` loop over a list of frames, the first observed
at time `t`, successive frames `FRAME_MS` apart. -/
def runVAD (t : Nat) (frames : List Frame) (s : VADState) : VADResult :=
  match frames with
  | [] => .outOfInput s
  | f :: rest =>
    match vadStep t f.speech f.samples s with
    | .emit b => .emitted b
    | .noSpeech => .noSpeech
    | .next s' => runVAD (t + FRAME_MS) rest s'

/-- `VADCapture.get_utterance`: resets the buffer and both timestamps on
entry (lines 164-167), then runs the capture loop. -/
def get_utterance (t : Nat) (frames : List Frame) : VADResult :=
  runVAD t frames initVAD

example : get_utterance 1000
    [⟨true, 8000⟩, ⟨true, 8000⟩, ⟨true, 8000⟩,
     ⟨false, 8000⟩, ⟨false, 8000⟩, ⟨false, 8000⟩, ⟨false, 8000⟩, ⟨false, 8000⟩]
    = .emitted 64000 := by decide

example : get_utterance 1000
    [⟨false, 8000⟩, ⟨false, 8000⟩, ⟨false, 8000⟩, ⟨false, 8000⟩, ⟨false, 8000⟩]
    = .noSpeech := by decide

/-! ### Segmenter lemmas -/

theorem forceCheck_emit_ge_max {s : VADState} {b : Nat}
    (h : forceCheck s = .emit b) : MAX_SPEECH_SAMPLES ≤ b := by
  unfold forceCheck at h
  split at h
  · injection h with h; subst h; assumption
  · cases h

theorem vadStep_emit_ge_min {now : Nat} {sp : Bool} {n : Nat} {s : VADState} {b : Nat}
    (h : vadStep now sp n s = .emit b) : MIN_SPEECH_SAMPLES ≤ b := by
  unfold vadStep at h
  split at h
  · split at h
    · cases h
    · split at h
      · cases h
      · cases h
  · split at h
    · exact le_trans (by decide) (forceCheck_emit_ge_max h)
    · split at h
      · exact le_trans (by decide) (forceCheck_emit_ge_max h)
      · split at h
        · split at h
          · injection h with h; subst h; assumption
          · exact le_trans (by decide) (forceCheck_emit_ge_max h)
        · exact le_trans (by decide) (forceCheck_emit_ge_max h)

theorem runVAD_emitted_ge_min :
    ∀ (frames : List Frame) (t : Nat) (s : VADState) (b : Nat),
      runVAD t frames s = .emitted b → MIN_SPEECH_SAMPLES ≤ b := by
  intro frames
  induction frames with
  | nil => intro t s b h; cases h
  | cons f rest ih =>
    intro t s b h
    unfold runVAD at h
    cases hstep : vadStep t f.speech f.samples s with
    | emit b' =>
      rw [hstep] at h
      injection h with h; subst h
      exact vadStep_emit_ge_min hstep
    | noSpeech => rw [hstep] at h; cases h
    | next s' => rw [hstep] at h; exact ih _ _ _ h

/-- Claim C10: every buffer emitted by `get_utterance` (whether by the
normal silence-completion path or by the forced `MAX_SPEECH_SEC` cutoff)
has duration at least `MIN_SPEECH_SEC` (1.0 s, i.e. 16000 samples): the
caller never receives a sub-minimum utterance. -/
theorem claim_C10 (t : Nat) (frames : List Frame) (b : Nat)
    (h : get_utterance t frames = .emitted b) : MIN_SPEECH_SAMPLES ≤ b :=
  runVAD_emitted_ge_min frames t initVAD b h

theorem claim_C10_witness :
    get_utterance 1000
      [⟨true, 8000⟩, ⟨true, 8000⟩, ⟨true, 8000⟩, ⟨false, 8000⟩,
       ⟨false, 8000⟩, ⟨false, 8000⟩, ⟨false, 8000⟩, ⟨false, 8000⟩]
      = .emitted 64000
    ∧ MIN_SPEECH_SAMPLES ≤ 64000 :=
  ⟨by decide, claim_C10 1000
      [⟨true, 8000⟩, ⟨true, 8000⟩, ⟨true, 8000⟩, ⟨false, 8000⟩,
       ⟨false, 8000⟩, ⟨false, 8000⟩, ⟨false, 8000⟩, ⟨false, 8000⟩]
      64000 (by decide)⟩

/-- Claim C4: while accumulating, once detected silence has persisted past
`SILENCE_TIMEOUT_SEC`: if the accumulated buffer (current frame included)
reaches `MIN_SPEECH_SEC` the segmenter returns it; otherwise it discards
the buffer and resets to the idle state without returning it. -/
theorem claim_C4 (now n : Nat) (s : VADState) (t0 ss : Nat)
    (hsp : s.speech_start = some t0) (hsil : s.silence_start = some ss)
    (helapsed : SILENCE_TIMEOUT_MS < now - ss) :
    (MIN_SPEECH_SAMPLES ≤ s.buf + n → vadStep now false n s = .emit (s.buf + n)) ∧
    (s.buf + n < MIN_SPEECH_SAMPLES → vadStep now false n s = .next initVAD) := by
  obtain ⟨buf, sp, sil, w⟩ := s
  simp only at hsp hsil
  subst hsp; subst hsil
  constructor
  · intro hlen
    simp [vadStep, helapsed, hlen]
  · intro hlen
    simp [vadStep, helapsed, Nat.not_le.mpr hlen, forceCheck, initVAD,
      MAX_SPEECH_SAMPLES]

theorem claim_C4_witness :
    vadStep 5000 false 8000 ⟨24000, some 1000, some 3000, 0⟩ = .emit 32000
    ∧ vadStep 5000 false 8000 ⟨4000, some 1000, some 3000, 0⟩ = .next initVAD :=
  ⟨(claim_C4 5000 8000 ⟨24000, some 1000, some 3000, 0⟩ 1000 3000
      rfl rfl (by decide)).1 (by decide),
   (claim_C4 5000 8000 ⟨4000, some 1000, some 3000, 0⟩ 1000 3000
      rfl rfl (by decide)).2 (by decide)⟩

theorem forceCheck_lt {s : VADState} (h : s.buf < MAX_SPEECH_SAMPLES) :
    forceCheck s = .next s := by
  unfold forceCheck
  rw [if_neg (by omega)]

theorem forceCheck_ge {s : VADState} (h : MAX_SPEECH_SAMPLES ≤ s.buf) :
    forceCheck s = .emit s.buf := by
  unfold forceCheck
  rw [if_pos h]

/-- A speech-verdict frame during accumulation appends the frame, clears
`silence_start` and runs the forced-length safety check. -/
theorem vadStep_speech (now n buf t0 w : Nat) :
    vadStep now true n ⟨buf, some t0, none, w⟩
      = forceCheck ⟨buf + n, some t0, none, w⟩ := rfl

/-- Unfolding of `runVAD` on a nonempty frame list. -/
theorem runVAD_cons (t : Nat) (f : Frame) (rest : List Frame) (s : VADState) :
    runVAD t (f :: rest) s
      = match vadStep t f.speech f.samples s with
        | .emit b => .emitted b
        | .noSpeech => .noSpeech
        | .next s2 => runVAD (t + FRAME_MS) rest s2 := rfl

/-- On a continuously detected speech stream the segmenter keeps
accumulating (silence logic never fires) until the forced
`MAX_SPEECH_SEC` cutoff returns the buffer. -/
theorem runVAD_all_speech (k : Nat) :
    ∀ (m t t0 w : Nat), m < 60 →
      runVAD t (List.replicate k ⟨true, FRAME_SAMPLES⟩)
          ⟨FRAME_SAMPLES * m, some t0, none, w⟩ =
        if 60 ≤ m + k then .emitted MAX_SPEECH_SAMPLES
        else .outOfInput ⟨FRAME_SAMPLES * (m + k), some t0, none, w⟩ := by
  induction k with
  | zero =>
    intro m t t0 w hm
    rw [if_neg (by omega)]
    simp [runVAD]
  | succ k ih =>
    intro m t t0 w hm
    rw [List.replicate_succ, runVAD_cons]
    have hstep := vadStep_speech t FRAME_SAMPLES (FRAME_SAMPLES * m) t0 w
    by_cases hm59 : m = 59
    · have harith : FRAME_SAMPLES * m + FRAME_SAMPLES = MAX_SPEECH_SAMPLES := by
        subst hm59
        norm_num [FRAME_SAMPLES, MAX_SPEECH_SAMPLES]
      rw [if_pos (by omega)]
      rw [hstep, harith, forceCheck_ge (le_refl MAX_SPEECH_SAMPLES)]
    · have harith : FRAME_SAMPLES * m + FRAME_SAMPLES = FRAME_SAMPLES * (m + 1) := by
        ring
      have hlt : FRAME_SAMPLES * (m + 1) < MAX_SPEECH_SAMPLES := by
        simp only [FRAME_SAMPLES, MAX_SPEECH_SAMPLES]
        omega
      have hforce : forceCheck ⟨FRAME_SAMPLES * (m + 1), some t0, none, w⟩
          = .next ⟨FRAME_SAMPLES * (m + 1), some t0, none, w⟩ :=
        forceCheck_lt hlt
      rw [hstep, harith, hforce]
      show runVAD (t + FRAME_MS) (List.replicate k ⟨true, FRAME_SAMPLES⟩)
        ⟨FRAME_SAMPLES * (m + 1), some t0, none, w⟩ = _
      rw [ih (m + 1) (t + FRAME_MS) t0 w (by omega)]
      have harith2 : m + 1 + k = m + (k + 1) := by omega
      rw [harith2]

/-- Claim C6: on a stream of frames in which speech is continuously
detected, the segmenter force-emits the buffer exactly when the
accumulated duration reaches `MAX_SPEECH_SEC` (30 s = 480000 samples =
60 frames), never earlier, and the emitted buffer is exactly
`MAX_SPEECH_SAMPLES` long (so it never exceeds the cutoff by more than
one frame); each `get_utterance` call restarts from the freshly reset
state, so the next call begins a new utterance. -/
theorem claim_C6 (t k : Nat) :
    (MAX_SPEECH_SAMPLES ≤ FRAME_SAMPLES * k →
      get_utterance t (List.replicate k ⟨true, FRAME_SAMPLES⟩)
        = .emitted MAX_SPEECH_SAMPLES) ∧
    (FRAME_SAMPLES * k < MAX_SPEECH_SAMPLES →
      ∀ b, get_utterance t (List.replicate k ⟨true, FRAME_SAMPLES⟩) ≠ .emitted b) ∧
    (∀ frames, get_utterance t frames = runVAD t frames initVAD) := by
  have hstep0 : vadStep t true FRAME_SAMPLES initVAD
      = .next ⟨FRAME_SAMPLES * 1, some t, none, 0⟩ := by
    show StepResult.next ⟨0 + FRAME_SAMPLES, some t, none, 0⟩
      = StepResult.next ⟨FRAME_SAMPLES * 1, some t, none, 0⟩
    rw [Nat.zero_add, Nat.mul_one]
  have hrun : ∀ j, get_utterance t (List.replicate (j + 1) ⟨true, FRAME_SAMPLES⟩)
      = runVAD (t + FRAME_MS) (List.replicate j ⟨true, FRAME_SAMPLES⟩)
          ⟨FRAME_SAMPLES * 1, some t, none, 0⟩ := by
    intro j
    rw [List.replicate_succ]
    show runVAD t (⟨true, FRAME_SAMPLES⟩ :: List.replicate j ⟨true, FRAME_SAMPLES⟩)
      initVAD = _
    rw [runVAD_cons, hstep0]
  refine ⟨?_, ?_, fun _ => rfl⟩
  · intro hk
    cases k with
    | zero => simp [FRAME_SAMPLES, MAX_SPEECH_SAMPLES] at hk
    | succ j =>
      rw [hrun j, runVAD_all_speech j 1 (t + FRAME_MS) t 0 (by omega)]
      rw [if_pos (by simp only [FRAME_SAMPLES, MAX_SPEECH_SAMPLES] at hk ⊢; omega)]
  · intro hk b
    cases k with
    | zero => simp [get_utterance, runVAD, List.replicate]
    | succ j =>
      rw [hrun j, runVAD_all_speech j 1 (t + FRAME_MS) t 0 (by omega)]
      rw [if_neg (by simp only [FRAME_SAMPLES, MAX_SPEECH_SAMPLES] at hk ⊢; omega)]
      simp

theorem claim_C6_witness :
    get_utterance 0 (List.replicate 60 ⟨true, FRAME_SAMPLES⟩)
      = .emitted MAX_SPEECH_SAMPLES
    ∧ get_utterance 0 (List.replicate 3 ⟨true, FRAME_SAMPLES⟩) ≠ .emitted 24000 :=
  ⟨(claim_C6 0 60).1 (by norm_num [FRAME_SAMPLES, MAX_SPEECH_SAMPLES]),
   (claim_C6 0 3).2.1 (by norm_num [FRAME_SAMPLES, MAX_SPEECH_SAMPLES]) 24000⟩

/-! ### _filter_text (run_jimmy.py lines 294-311)

Python string semantics used below: `text.split()` splits on runs of
whitespace and drops empty pieces; `" ".join(ws)` is
`String.intercalate " " ws`; `pat in s` is a substring test; an empty
string is falsy (`if not text`). -/

/-- Python `str.split()` with no argument: split the character stream on
runs of whitespace, dropping empty pieces. `acc` holds the characters of
the word in progress, reversed. -/
def splitWordsAux (acc : List Char) : List Char → List String
  | [] => if acc = [] then [] else [String.mk acc.reverse]
  | c :: rest =>
    if c.isWhitespace then
      (if acc = [] then [] else [String.mk acc.reverse]) ++ splitWordsAux [] rest
    else splitWordsAux (c :: acc) rest

/-- Python `str.split()` with no argument. -/
def pySplit (s : String) : List String := splitWordsAux [] s.data

/-- Python `str.lower()`, character by character. -/
def pyLower (s : String) : String := String.mk (s.data.map Char.toLower)

/-- Python `pat in s` substring test over the character lists. -/
def containsSub (s pat : String) : Bool :=
  (List.range (s.data.length + 1)).any fun i =>
    pat.data.isPrefixOf (s.data.drop i)

/-- The fixed denylist of filler phrases (lines 303-306). -/
def hallucinations : List String :=
  ["thank you for watching", "thanks for watching", "see you in the next",
   "subscribe", "like and subscribe", "please subscribe"]

/-- The half-duplication test (lines 298-301): word count above 6 and the
first half of the word sequence equal, as a space-joined string, to the
second half `words[half : half * 2]`. -/
def halfDupCond (text : String) : Bool :=
  let words := pySplit text
  decide (6 < words.length)
    && decide (String.intercalate " " (words.take (words.length / 2))
        = String.intercalate " " ((words.drop (words.length / 2)).take (words.length / 2)))

/-- The known-hallucination test (lines 303-310): some denylist phrase
occurs in the lowercased text and the word count is below 10. -/
def hallucCond (text : String) : Bool :=
  hallucinations.any (fun h => containsSub (pyLower text) h)
    && decide ((pySplit text).length < 10)

/-- The half-duplication stage in isolation: blank the text when
`halfDupCond` fires, otherwise pass it through unchanged. -/
def halfDupFilter (text : String) : String :=
  if halfDupCond text then "" else text

/-- The known-hallucination stage in isolation. -/
def hallucinationFilter (text : String) : String :=
  if hallucCond text then "" else text

/-- `_filter_text` (lines 294-311): de-duplicate and filter
hallucinations, returning the empty string for rejected text. -/
def _filter_text (text : String) : String :=
  if text = "" then ""
  else if halfDupCond text then ""
  else if hallucCond text then ""
  else text

example : _filter_text "a b c a b c d" = "" := by decide
example : _filter_text "hello there everyone today" = "hello there everyone today" := by
  decide
example : _filter_text "thanks for watching" = "" := by decide

/-- Claim C5: if the transcription output has more than 6 words and the
first half of the word sequence equals the second half, `_filter_text`
returns the empty string; when the half-duplication condition does not
hold, the half-duplication stage passes the text through unchanged (and
`_filter_text` is exactly the empty-check, the half-duplication stage and
the hallucination stage in sequence). -/
theorem claim_C5 (text : String) :
    (halfDupCond text = true → _filter_text text = "") ∧
    (halfDupCond text = false → halfDupFilter text = text) ∧
    _filter_text text
      = if text = "" then "" else hallucinationFilter (halfDupFilter text) := by
  refine ⟨fun h => ?_, fun h => ?_, ?_⟩
  · unfold _filter_text
    split_ifs <;> simp_all
  · unfold halfDupFilter
    rw [if_neg (by simp [h])]
  · unfold _filter_text halfDupFilter hallucinationFilter
    have hblank : hallucCond "" = false := by decide
    split_ifs <;> simp_all

theorem claim_C5_witness :
    _filter_text "a b c a b c d" = "" ∧ halfDupFilter "hello there" = "hello there" :=
  ⟨(claim_C5 "a b c a b c d").1 (by decide),
   (claim_C5 "hello there").2.1 (by decide)⟩

/-! ### transcribe_remote / transcribe_local (lines 243-291)

The two backends are external services; each attempt is modelled by an
`Except String String`: `.ok text` when the backend produced a raw
transcription (the remote JSON `text` field, stripped, or the joined
local segments), `.error e` when any step of that attempt raised —
network error, timeout, malformed response, model failure. The `try`
blocks in the source catch every exception of the attempt. -/

/-- `transcribe_local` (lines 280-291): on success, filter the local
model output; on any local failure, return the empty string. -/
def transcribe_local (localOutcome : Except String String) : String :=
  match localOutcome with
  | .ok text => _filter_text text
  | .error _ => ""

/-- `transcribe_remote` (lines 243-277): on success, filter the remote
text; on any remote failure, fall back to `transcribe_local` within the
same call. -/
def transcribe_remote (remoteOutcome localOutcome : Except String String) : String :=
  match remoteOutcome with
  | .ok text => _filter_text text
  | .error _ => transcribe_local localOutcome

/-- Claim C8: the dispatcher tries the remote backend first and on any
remote failure falls back to the local backend synchronously within the
same call; whatever the backend outcomes, the caller receives either the
filtered text of some backend output or the empty string — never an
exception, and nothing in the result identifies the backend. -/
theorem claim_C8 (r l : Except String String) :
    (∀ e, transcribe_remote (.error e) l = transcribe_local l) ∧
    ((∃ t, transcribe_remote r l = _filter_text t) ∨ transcribe_remote r l = "") := by
  constructor
  · intro e
    rfl
  · cases r with
    | ok t => exact Or.inl ⟨t, rfl⟩
    | error e =>
      cases l with
      | ok t => exact Or.inl ⟨t, rfl⟩
      | error e2 => exact Or.inr rfl

/-! ### speak (run_jimmy.py lines 315-356)

`re.split` with pattern `(?<=[.!?])\s+` on `text.strip()`: the separator is a maximal
run of whitespace whose preceding character is terminal punctuation; the
punctuation stays with the preceding chunk. Each chunk is then
synthesized, converted and played inside a per-chunk `try` whose `except`
only logs, so every chunk is attempted whatever happened to the previous
ones. The synthesis/conversion/playback of one chunk is modelled by a
Boolean-valued `attempt` function (`true` = the chunk played). -/

def isTerminalPunct (c : Char) : Bool := c = '.' || c = '!' || c = '?'

/-- Python `str.strip()` on the character list. -/
def stripChars (l : List Char) : List Char :=
  ((l.dropWhile Char.isWhitespace).reverse.dropWhile Char.isWhitespace).reverse

/-- Python `str.strip()`. -/
def pyStrip (s : String) : String := String.mk (stripChars s.data)

/-- Whether a character list starts with whitespace (regex lookahead for
the separator `\s+`). -/
def headIsWs : List Char → Bool
  | d :: _ => d.isWhitespace
  | [] => false

/-- The lookbehind split: a separator is a maximal whitespace run whose
preceding character is terminal punctuation. `acc` holds the chunk in
progress, reversed; `postCut` records that a separator was just cut, so
the remaining whitespace of its run (reached with an empty `acc`) is
still being consumed. -/
def splitSentAux (postCut : Bool) (acc : List Char) : List Char → List (List Char)
  | [] => [acc.reverse]
  | c :: rest =>
    if postCut && acc.isEmpty && c.isWhitespace then
      splitSentAux true [] rest
    else if isTerminalPunct c && headIsWs rest then
      (c :: acc).reverse :: splitSentAux true [] rest
    else splitSentAux postCut (c :: acc) rest

/-- The chunk list `speak` iterates over (lines 317-320): split the
stripped text, keep the chunks that are non-blank, and fall back to the
whole original text when nothing remains. -/
def sentenceChunks (text : String) : List String :=
  let ss := (splitSentAux false [] (pyStrip text).data).map String.mk
  let ss2 := ss.filter (fun c => pyStrip c ≠ "")
  if ss2 = [] then [text] else ss2

/-- `speak` (lines 315-356): process every chunk in order; a failed
chunk (`attempt` returns `false`, the `except` branch) is logged and the
loop moves on to the next chunk. The returned list records, in
processing order, each chunk and whether its attempt succeeded. -/
def speak (text : String) (attempt : String → Bool) : List (String × Bool) :=
  (sentenceChunks text).map (fun c => (c, attempt c))

example : sentenceChunks "Sure, turning them on." = ["Sure, turning them on."] := by
  decide
example : sentenceChunks "Hi there. All good! Yes? ok" = ["Hi there.", "All good!", "Yes?", "ok"] := by
  decide
example : speak "Hi. Bye" (fun c => c = "Bye") = [("Hi.", false), ("Bye", true)] := by
  decide

/-- Whether the text contains any split boundary: a terminal-punctuation
character immediately followed by whitespace. -/
def hasBoundary : List Char → Bool
  | [] => false
  | c :: rest => (isTerminalPunct c && headIsWs rest) || hasBoundary rest

theorem splitSentAux_no_boundary :
    ∀ (l acc : List Char), hasBoundary l = false →
      splitSentAux false acc l = [acc.reverse ++ l] := by
  intro l
  induction l with
  | nil => intro acc _; simp [splitSentAux]
  | cons c rest ih =>
    intro acc hb
    unfold hasBoundary at hb
    rw [Bool.or_eq_false_iff] at hb
    unfold splitSentAux
    rw [if_neg (by simp), if_neg (by simp [hb.1])]
    rw [ih (c :: acc) hb.2]
    simp

/-- Claim C9: `speak` processes exactly the sentence chunks of the text,
in order, attempting every chunk whatever the outcomes of the earlier
chunks (a failed chunk only logs and the loop continues); and when the
text contains no terminal-punctuation boundary (and is non-blank,
whitespace already stripped), the whole text is the single chunk. -/
theorem claim_C9 (text : String) (attempt : String → Bool) :
    ((speak text attempt).map Prod.fst = sentenceChunks text) ∧
    (∀ other : String → Bool,
      (speak text other).map Prod.fst = (speak text attempt).map Prod.fst) ∧
    (stripChars text.data = text.data → text ≠ "" → hasBoundary text.data = false →
      speak text attempt = [(text, attempt text)]) := by
  have hfst : ∀ f : String → Bool,
      (speak text f).map Prod.fst = sentenceChunks text := by
    intro f
    unfold speak
    rw [List.map_map,
      show (Prod.fst ∘ fun c : String => (c, f c)) = id from rfl, List.map_id]
  refine ⟨hfst attempt, ?_, ?_⟩
  · intro other
    rw [hfst other, hfst attempt]
  · intro hstrip hne hb
    have hps : pyStrip text = text := by
      unfold pyStrip
      rw [hstrip]
    have hchunks : sentenceChunks text = [text] := by
      unfold sentenceChunks
      rw [hps, splitSentAux_no_boundary text.data [] hb]
      simp only [List.reverse_nil, List.nil_append, List.map]
      have hmk : String.mk text.data = text := rfl
      rw [hmk]
      rw [List.filter, hps]
      simp [hne]
    unfold speak
    rw [hchunks]
    rfl

theorem claim_C9_witness :
    speak "turn on the lights please" (fun _ => false)
      = [("turn on the lights please", false)] :=
  (claim_C9 "turn on the lights please" (fun _ => false)).2.2
    (by decide) (by decide) (by decide)

/-! ### read_agent_response (run_jimmy.py lines 373-386)

The outbox file holds zero or more JSON lines. A line is abstracted by
what `json.loads(line.strip())` followed by `.get("text", None)` does
with it: it raises (`malformed`), yields an object with a `text` field
(`objWithText`), or yields an object without one (`objNoText`). The file
as a whole can be missing (`os.path.exists` fails), unreadable (the
`open`/`readlines` raises inside the `try`), or a list of lines. -/

inductive JsonLine where
  | malformed
  | objWithText (text : String)
  | objNoText
deriving DecidableEq, Repr

inductive Outbox where
  | absent
  | unreadable
  | outboxLines (ls : List JsonLine)
deriving DecidableEq, Repr

/-- The agent side appending one reply object per line. -/
def agentWrite (ob : Outbox) (text : String) : Outbox :=
  match ob with
  | .absent => .outboxLines [.objWithText text]
  | .unreadable => .unreadable
  | .outboxLines ls => .outboxLines (ls ++ [.objWithText text])

/-- `read_agent_response` (lines 373-386): returns the new outbox state
and the optional reply text. The file is truncated
(`open(AGENT_OUTBOX, "w").close()`) only after `json.loads` of the last
line succeeded; every exception path returns `None` with the file
untouched. -/
def read_agent_response (ob : Outbox) : Outbox × Option String :=
  match ob with
  | .absent => (.absent, none)
  | .unreadable => (.unreadable, none)
  | .outboxLines ls =>
    match ls.getLast? with
    | none => (.outboxLines ls, none)
    | some .malformed => (.outboxLines ls, none)
    | some (.objWithText t) => (.outboxLines [], some t)
    | some .objNoText => (.outboxLines [], none)

/-- Claim C2: `read_agent_response` returns the text of the last message
in the outbox and clears the outbox — a poll right after an agent write
returns the written text and a second immediate poll returns none — and
an empty, missing, unreadable outbox or a malformed last line yields
none rather than an error. -/
theorem claim_C2 :
    (∀ (ls : List JsonLine) (t : String),
      ls.getLast? = some (.objWithText t) →
      read_agent_response (.outboxLines ls) = (.outboxLines [], some t)) ∧
    (∀ (ls : List JsonLine) (t : String),
      read_agent_response (agentWrite (.outboxLines ls) t)
        = (.outboxLines [], some t)) ∧
    read_agent_response (.outboxLines []) = (.outboxLines [], none) ∧
    read_agent_response .absent = (.absent, none) ∧
    read_agent_response .unreadable = (.unreadable, none) ∧
    (∀ ls : List JsonLine, ls.getLast? = some .malformed →
      read_agent_response (.outboxLines ls) = (.outboxLines ls, none)) := by
  refine ⟨?_, ?_, rfl, rfl, rfl, ?_⟩
  · intro ls t h
    simp only [read_agent_response]
    rw [h]
  · intro ls t
    simp only [agentWrite, read_agent_response]
    rw [List.getLast?_concat]
  · intro ls h
    simp only [read_agent_response]
    rw [h]

theorem claim_C2_witness :
    read_agent_response (agentWrite (.outboxLines []) "Sure, turning them on.")
      = (.outboxLines [], some "Sure, turning them on.")
    ∧ read_agent_response (.outboxLines [.objWithText "hi", .malformed])
      = (.outboxLines [.objWithText "hi", .malformed], none) :=
  ⟨claim_C2.2.1 [] "Sure, turning them on.",
   claim_C2.2.2.2.2.2 [.objWithText "hi", .malformed] (by decide)⟩

/-! ### The main loop (run_jimmy.py lines 462-527)

The loop body is modelled one iteration at a time. The mutable state the
loop carries between iterations is `last_speak_time` and `round_num`
(lines 478-479). The environment-supplied data of one iteration — the
out-of-band reply found at the top of the loop, the transcription of the
captured utterance, the `time.time()` values and the sequence of reply
polls — are bundled in `IterInput`. Side effects are recorded as an
event list: `spoke` for each `speak(...)` call, `posted` for each
`write_to_agent` inbox write, `timedOut` for the timeout log line. -/

structure CoordState where
  last_speak_time : Nat
  round_num : Nat
deriving DecidableEq, Repr

/-- `last_speak_time = 0`, `round_num = 0` (lines 478-479). -/
def initCoord : CoordState := ⟨0, 0⟩

inductive Event where
  | spoke (text : String) (t : Nat)
  | posted (text : String) (round : Nat)
  | timedOut (round : Nat)
deriving DecidableEq, Repr

/-- The inbox writes (`write_to_agent` calls) recorded in an event list,
with the round number each message carries. -/
def posts (evs : List Event) : List (String × Nat) :=
  evs.filterMap fun e =>
    match e with
    | .posted t r => some (t, r)
    | _ => none

/-- The round ids of the posted mailbox messages, in posting order. -/
def postedRounds (evs : List Event) : List Nat :=
  (posts evs).map Prod.snd

/-- `if not text or len(text.split()) < 2: continue` (line 501). -/
def actionable (text : String) : Bool :=
  !(text = "" || decide ((pySplit text).length < 2))

/-- The top-of-loop out-of-band drain (lines 484-489): speak any reply
left over from a previous round and update `last_speak_time`. -/
def drainStep (s : CoordState) (preReply : Option String) (tPre : Nat) :
    CoordState × List Event :=
  match preReply with
  | some r => (⟨tPre, s.round_num⟩, [.spoke r tPre])
  | none => (s, [])

/-- The reply wait (lines 515-519): up to `REPLY_TIMEOUT_POLLS` polls of
the outbox, one per second, stopping at the first reply; `polls k` is
what `read_agent_response` yields at poll number `k`. -/
def waitForReply (polls : Nat → Option String) : Nat → Nat → Option String
  | _, 0 => none
  | k, fuel + 1 =>
    match polls k with
    | some r => some r
    | none => waitForReply polls (k + 1) fuel

/-- Environment inputs consumed by one iteration of the `while True`
body: the poll result at the loop top, the `time.time()` after a drained
reply is spoken, the transcription of the captured utterance (`none`
when `get_utterance` returned nothing usable), the `time.time()` of the
self-interruption check, the reply polls, and the `time.time()` after a
polled reply is spoken. -/
structure IterInput where
  preReply : Option String
  tPre : Nat
  text : Option String
  tCheck : Nat
  polls : Nat → Option String
  tAfter : Nat

/-- One iteration of the `while True` body (lines 482-527). -/
def loopIter (s : CoordState) (inp : IterInput) : CoordState × List Event :=
  match drainStep s inp.preReply inp.tPre with
  | (s1, ev1) =>
    match inp.text with
    | none => (s1, ev1)
    | some t =>
      if actionable t then
        -- `round_num += 1` (line 504) happens before the check
        if inp.tCheck - s1.last_speak_time < SELF_INTERRUPT_MS then
          (⟨s1.last_speak_time, s1.round_num + 1⟩, ev1)
        else
          match waitForReply inp.polls 0 REPLY_TIMEOUT_POLLS with
          | some r =>
            (⟨inp.tAfter, s1.round_num + 1⟩,
              ev1 ++ [.posted t (s1.round_num + 1), .spoke r inp.tAfter])
          | none =>
            (⟨s1.last_speak_time, s1.round_num + 1⟩,
              ev1 ++ [.posted t (s1.round_num + 1), .timedOut (s1.round_num + 1)])
      else (s1, ev1)

/-- Successive iterations of the loop: the final state, and all events
in order. -/
def runLoop (s : CoordState) : List IterInput → CoordState × List Event
  | [] => (s, [])
  | inp :: rest =>
    ((runLoop (loopIter s inp).1 rest).1,
      (loopIter s inp).2 ++ (runLoop (loopIter s inp).1 rest).2)


/-! ### Coordinator lemmas -/

theorem drainStep_round (s : CoordState) (pr : Option String) (tP : Nat) :
    (drainStep s pr tP).1.round_num = s.round_num := by
  cases pr <;> rfl

theorem drainStep_posts (s : CoordState) (pr : Option String) (tP : Nat) :
    posts (drainStep s pr tP).2 = [] := by
  cases pr <;> rfl

theorem posts_append (a b : List Event) : posts (a ++ b) = posts a ++ posts b :=
  List.filterMap_append a b _

theorem postedRounds_append (a b : List Event) :
    postedRounds (a ++ b) = postedRounds a ++ postedRounds b := by
  unfold postedRounds
  rw [posts_append, List.map_append]

/-- Per-iteration characterization: an iteration either posts nothing, or
posts exactly one message carrying round id `s.round_num + 1`, in which
case the new round counter is that same value. In both cases the counter
grows by at most one and never decreases. -/
theorem loopIter_posts_or (s : CoordState) (inp : IterInput) :
    (posts (loopIter s inp).2 = [] ∧
      ((loopIter s inp).1.round_num = s.round_num ∨
        (loopIter s inp).1.round_num = s.round_num + 1)) ∨
    (∃ t, posts (loopIter s inp).2 = [(t, s.round_num + 1)] ∧
      (loopIter s inp).1.round_num = s.round_num + 1) := by
  obtain ⟨pr, tP, txt, tC, polls, tA⟩ := inp
  cases pr <;> cases txt <;> simp only [loopIter, drainStep]
  · exact Or.inl ⟨rfl, Or.inl (by trivial)⟩
  · rename_i t
    split
    · split
      · exact Or.inl ⟨rfl, Or.inr (by trivial)⟩
      · split
        · exact Or.inr ⟨t, rfl, by trivial⟩
        · exact Or.inr ⟨t, rfl, by trivial⟩
    · exact Or.inl ⟨rfl, Or.inl (by trivial)⟩
  · exact Or.inl ⟨rfl, Or.inl (by trivial)⟩
  · rename_i r t
    split
    · split
      · exact Or.inl ⟨rfl, Or.inr (by trivial)⟩
      · split
        · exact Or.inr ⟨t, rfl, by trivial⟩
        · exact Or.inr ⟨t, rfl, by trivial⟩
    · exact Or.inl ⟨rfl, Or.inl (by trivial)⟩

theorem loopIter_round_le (s : CoordState) (inp : IterInput) :
    s.round_num ≤ (loopIter s inp).1.round_num := by
  rcases loopIter_posts_or s inp with ⟨_, h | h⟩ | ⟨_, _, h⟩ <;> omega

theorem runLoop_round_le :
    ∀ (l : List IterInput) (s : CoordState),
      s.round_num ≤ (runLoop s l).1.round_num := by
  intro l
  induction l with
  | nil => intro s; exact le_refl _
  | cons inp rest ih =>
    intro s
    exact le_trans (loopIter_round_le s inp) (ih (loopIter s inp).1)

theorem runLoop_posted_gt :
    ∀ (l : List IterInput) (s : CoordState) (r : Nat),
      r ∈ postedRounds (runLoop s l).2 →
      s.round_num < r ∧ r ≤ (runLoop s l).1.round_num := by
  intro l
  induction l with
  | nil => intro s r h; cases h
  | cons inp rest ih =>
    intro s r h
    have h2 : r ∈ postedRounds (loopIter s inp).2
        ++ postedRounds (runLoop (loopIter s inp).1 rest).2 := by
      rw [← postedRounds_append]
      exact h
    show s.round_num < r ∧ r ≤ (runLoop (loopIter s inp).1 rest).1.round_num
    rcases List.mem_append.mp h2 with hm | hm
    · rcases loopIter_posts_or s inp with ⟨hp, _⟩ | ⟨t, hp, hr⟩
      · simp only [postedRounds, hp, List.map_nil] at hm
        cases hm
      · simp only [postedRounds, hp, List.map_cons, List.map_nil] at hm
        simp at hm
        subst hm
        have hle := runLoop_round_le rest (loopIter s inp).1
        omega
    · have hgt := ih (loopIter s inp).1 r hm
      have hle := loopIter_round_le s inp
      omega

theorem runLoop_posted_chain :
    ∀ (l : List IterInput) (s : CoordState),
      List.Chain' (· < ·) (postedRounds (runLoop s l).2) := by
  intro l
  induction l with
  | nil => intro s; simp [runLoop, postedRounds, posts]
  | cons inp rest ih =>
    intro s
    have hsplit : postedRounds (runLoop s (inp :: rest)).2
        = postedRounds (loopIter s inp).2
          ++ postedRounds (runLoop (loopIter s inp).1 rest).2 := by
      rw [← postedRounds_append]
      rfl
    rw [hsplit]
    rcases loopIter_posts_or s inp with ⟨hp, _⟩ | ⟨t, hp, hr⟩
    · simp only [postedRounds, hp, List.map_nil, List.nil_append]
      exact ih (loopIter s inp).1
    · simp only [postedRounds, hp, List.map_cons, List.map_nil]
      rw [List.chain'_append]
      refine ⟨List.chain'_singleton _, ih (loopIter s inp).1, ?_⟩
      intro x hx y hy
      simp at hx
      subst hx
      have hy2 : y ∈ postedRounds (runLoop (loopIter s inp).1 rest).2 :=
        List.mem_of_mem_head? hy
      have hgt := runLoop_posted_gt rest (loopIter s inp).1 y hy2
      omega

theorem waitForReply_congr :
    ∀ (fuel k : Nat) (p q : Nat → Option String),
      (∀ i, k ≤ i → i < k + fuel → p i = q i) →
      waitForReply p k fuel = waitForReply q k fuel := by
  intro fuel
  induction fuel with
  | zero => intro k p q _; rfl
  | succ fuel ih =>
    intro k p q h
    unfold waitForReply
    rw [h k (le_refl k) (by omega)]
    cases q k with
    | some r => rfl
    | none => exact ih (k + 1) p q (fun i h1 h2 => h i (by omega) (by omega))


/-- Claim C1: an utterance whose self-interruption check falls within
`SELF_INTERRUPT_MS` after `last_speak_time` (as updated by the
out-of-band drain) is discarded by the coordinator: the iteration
performs no inbox write at all — no `posted` event occurs. -/
theorem claim_C1 (s : CoordState) (inp : IterInput) (t : String)
    (htext : inp.text = some t)
    (hwin : inp.tCheck - (drainStep s inp.preReply inp.tPre).1.last_speak_time
      < SELF_INTERRUPT_MS) :
    posts (loopIter s inp).2 = [] := by
  obtain ⟨pr, tP, txt, tC, polls, tA⟩ := inp
  simp only at htext hwin ⊢
  subst htext
  cases pr <;> simp only [loopIter, drainStep] at hwin ⊢ <;> split <;> rfl

theorem claim_C1_witness :
    posts (loopIter ⟨100000, 0⟩
      ⟨none, 0, some "hello there", 103000, fun _ => none, 0⟩).2 = [] :=
  claim_C1 ⟨100000, 0⟩ ⟨none, 0, some "hello there", 103000, fun _ => none, 0⟩
    "hello there" rfl (by decide)

/-- Claim C3 fails on the code: `round_num += 1` (line 504) runs before
the self-interruption check (lines 507-509), so a discarded utterance
still consumes a round id. Concretely: after the bot spoke at t=100 s, an
utterance checked at t=103 s is discarded yet leaves `round_num = 1`
with no mailbox write, and in the two-iteration run below the very first
posted message carries round id 2, not 1. -/
theorem claim_C3_counterexample :
    (loopIter ⟨100000, 0⟩
      ⟨none, 0, some "hello there", 103000, fun _ => none, 0⟩).1.round_num = 1
    ∧ posts (loopIter ⟨100000, 0⟩
        ⟨none, 0, some "hello there", 103000, fun _ => none, 0⟩).2 = []
    ∧ postedRounds (runLoop ⟨100000, 0⟩
        [⟨none, 0, some "hello there", 103000, fun _ => none, 0⟩,
         ⟨none, 0, some "how are you", 120000, fun _ => none, 130000⟩]).2 = [2] :=
  ⟨rfl, rfl, rfl⟩

/-- Claim C3 (amended): the coordinator increments `round_num` for every
actionable transcription before the self-interruption check, so an
utterance discarded by the check still consumes a round id and posts
nothing, an utterance that passes posts exactly one message carrying the
incremented id, and the round ids on posted mailbox messages are
strictly increasing — but not necessarily consecutive and not
necessarily starting at 1. -/
theorem claim_C3_amended (s : CoordState) (inp : IterInput) (t : String)
    (htext : inp.text = some t) (hact : actionable t = true) :
    (loopIter s inp).1.round_num = s.round_num + 1 ∧
    (inp.tCheck - (drainStep s inp.preReply inp.tPre).1.last_speak_time
        < SELF_INTERRUPT_MS →
      posts (loopIter s inp).2 = []) ∧
    (SELF_INTERRUPT_MS
        ≤ inp.tCheck - (drainStep s inp.preReply inp.tPre).1.last_speak_time →
      posts (loopIter s inp).2 = [(t, s.round_num + 1)]) ∧
    (∀ l : List IterInput, List.Chain' (· < ·) (postedRounds (runLoop s l).2)) := by
  obtain ⟨pr, tP, txt, tC, polls, tA⟩ := inp
  simp only at htext ⊢
  subst htext
  refine ⟨?_, fun hwin => ?_, fun hwin => ?_, fun l => runLoop_posted_chain l s⟩
  · cases pr <;> simp only [loopIter, drainStep] <;> rw [if_pos hact] <;>
      split <;> first | rfl | (split <;> rfl)
  · cases pr <;> simp only [loopIter, drainStep] at hwin ⊢ <;>
      rw [if_pos hact, if_pos hwin] <;> rfl
  · cases pr <;> simp only [loopIter, drainStep] at hwin ⊢ <;>
      rw [if_pos hact, if_neg (by omega)] <;> split <;> rfl

theorem claim_C3_amended_witness :
    (loopIter ⟨100000, 0⟩
      ⟨none, 0, some "hello there", 103000, fun _ => none, 0⟩).1.round_num = 1
    ∧ posts (loopIter ⟨100000, 0⟩
        ⟨none, 0, some "hello there", 103000, fun _ => none, 0⟩).2 = [] :=
  ⟨(claim_C3_amended ⟨100000, 0⟩
      ⟨none, 0, some "hello there", 103000, fun _ => none, 0⟩
      "hello there" rfl (by decide)).1,
   (claim_C3_amended ⟨100000, 0⟩
      ⟨none, 0, some "hello there", 103000, fun _ => none, 0⟩
      "hello there" rfl (by decide)).2.1 (by decide)⟩

/-- Claim C7: once a round is posted, the coordinator polls the outbox
at most `REPLY_TIMEOUT_POLLS` times (one per second), stopping at the
first reply: if a reply arrives it is spoken and `last_speak_time` is set
to the speak time; if none arrives the iteration ends with a timeout
event naming that round and no speak event, the wait depends only on the
first `REPLY_TIMEOUT_POLLS` polls, and no later iteration ever posts
that round id again. -/
theorem claim_C7 (s : CoordState) (inp : IterInput) (t : String)
    (hpre : inp.preReply = none) (htext : inp.text = some t)
    (hact : actionable t = true)
    (hwin : SELF_INTERRUPT_MS ≤ inp.tCheck - s.last_speak_time) :
    (∀ r, waitForReply inp.polls 0 REPLY_TIMEOUT_POLLS = some r →
      loopIter s inp = (⟨inp.tAfter, s.round_num + 1⟩,
        [.posted t (s.round_num + 1), .spoke r inp.tAfter])) ∧
    (waitForReply inp.polls 0 REPLY_TIMEOUT_POLLS = none →
      loopIter s inp = (⟨s.last_speak_time, s.round_num + 1⟩,
        [.posted t (s.round_num + 1), .timedOut (s.round_num + 1)])) ∧
    (∀ q : Nat → Option String,
      (∀ i, i < REPLY_TIMEOUT_POLLS → inp.polls i = q i) →
      waitForReply q 0 REPLY_TIMEOUT_POLLS
        = waitForReply inp.polls 0 REPLY_TIMEOUT_POLLS) ∧
    (∀ l : List IterInput,
      ∀ r ∈ postedRounds (runLoop (loopIter s inp).1 l).2,
        s.round_num + 1 < r) := by
  obtain ⟨pr, tP, txt, tC, polls, tA⟩ := inp
  simp only at hpre htext hwin ⊢
  subst hpre
  subst htext
  refine ⟨?_, ?_, ?_, ?_⟩
  · intro r hr
    simp only [loopIter, drainStep]
    rw [if_pos hact, if_neg (by omega), hr]
    rfl
  · intro hr
    simp only [loopIter, drainStep]
    rw [if_pos hact, if_neg (by omega), hr]
    rfl
  · intro q hq
    exact (waitForReply_congr REPLY_TIMEOUT_POLLS 0 polls q
      (fun i _ h2 => hq i (by omega))).symm
  · intro l r hm
    have hround : (loopIter s ⟨none, tP, some t, tC, polls, tA⟩).1.round_num
        = s.round_num + 1 := by
      simp only [loopIter, drainStep]
      rw [if_pos hact, if_neg (by omega)]
      split <;> rfl
    have hgt := (runLoop_posted_gt l _ r hm).1
    omega

theorem claim_C7_witness :
    loopIter ⟨100000, 0⟩
        ⟨none, 0, some "how are you", 120000, fun _ => none, 130000⟩
      = (⟨100000, 1⟩, [.posted "how are you" 1, .timedOut 1]) :=
  (claim_C7 ⟨100000, 0⟩
    ⟨none, 0, some "how are you", 120000, fun _ => none, 130000⟩
    "how are you" rfl rfl (by decide) (by decide)).2.1 (by decide)
